import Mathlib

/-!
# Shallow embedding of the kafka-http-proxy broker-connection core

Definitions are translated from the Go sources of the repository
(`kafka.go`, the file holding `KafkaClient` and its session façades, and
`handlers.go`, the HTTP handlers).  Concurrency is embedded by making the
outcome of each channel race an explicit parameter (a `Race` or a select
schedule), and the pool's bounded FIFO channels become explicit lists.
32-bit machine arithmetic is embedded as `Int` with an explicit `wrap32`.
-/

namespace KHP

/-- Two's-complement wraparound of a mathematical integer into `int32`,
modelling Go's defined signed-overflow behaviour. -/
def wrap32 (x : Int) : Int := (x + 2 ^ 31) % 2 ^ 32 - 2 ^ 31

/-- The closed error-kind set `KhpError*` of `kafka.go` (the `iota` block). -/
inductive KhpErrno where
  | noBrokers
  | readTimeout
  | writeTimeout
  | offsetCommitTimeout
  | offsetFetchTimeout
  | consumerClosed
  | producerClosed
  | offsetCoordinatorClosed
  | metadataReadTimeout
  deriving DecidableEq, Repr

/-- An error as seen by a façade caller: either one of the proxy's own
`KhpError` kinds, or an opaque delegate (broker-client) error, identified
by a code. -/
abbrev OpErr := KhpErrno ⊕ Nat

/-- The pool state of `KafkaClient`: the `freeBrokers` and `deadBrokers`
bounded FIFO channels (front = next to be dequeued), and the
`FreeBrokers` / `DeadBrokers` counters. -/
structure PoolState where
  free : List Int
  dead : List Int
  freeCounter : Int
  deadCounter : Int
  deriving DecidableEq, Repr

/-- Model of `KafkaClient.getBroker`: a `select` on `freeBrokers` with a `default`
branch.  A ready id is dequeued and the `FreeBrokers` counter decremented;
otherwise the call immediately returns the `NoBrokers` error.  (The
`freeBrokers` channel is never closed while the client is live, so the
`!ok` branch cannot fire.) -/
def getBroker (s : PoolState) : Except KhpErrno Int × PoolState :=
  match s.free with
  | [] => (Except.error KhpErrno.noBrokers, s)
  | bid :: rest =>
      (Except.ok bid, { s with free := rest, freeCounter := s.freeCounter - 1 })

/-- Model of `KafkaClient.freeBroker`: enqueue the id on `freeBrokers` and increment
the `FreeBrokers` counter. -/
def freeBroker (bid : Int) (s : PoolState) : PoolState :=
  { s with free := s.free ++ [bid], freeCounter := s.freeCounter + 1 }

/-- Model of `KafkaClient.deadBroker`: enqueue the id on `deadBrokers` and increment
the `DeadBrokers` counter. -/
def deadBroker (bid : Int) (s : PoolState) : PoolState :=
  { s with dead := s.dead ++ [bid], deadCounter := s.deadCounter + 1 }

/-- C1: `getBroker` never suspends: with a non-empty free set it dequeues
the front id (which is a member of the free set) and decrements the
`FreeBrokers` counter by one, leaving the dead set untouched; with an
empty free set it returns the `NoBrokers` error and leaves the pool state
unchanged. -/
theorem c1_borrow_nonblocking (s : PoolState) :
    (s.free ≠ [] →
      ∃ bid, bid ∈ s.free ∧
        (getBroker s).1 = Except.ok bid ∧
        (getBroker s).2.free = s.free.tail ∧
        (getBroker s).2.freeCounter = s.freeCounter - 1 ∧
        (getBroker s).2.dead = s.dead ∧
        (getBroker s).2.deadCounter = s.deadCounter) ∧
    (s.free = [] → getBroker s = (Except.error KhpErrno.noBrokers, s)) := by
  constructor
  · intro hne
    match h : s.free with
    | [] => exact absurd h hne
    | bid :: rest =>
        refine ⟨bid, ?_, ?_⟩
        · exact List.mem_cons_self bid rest
        · simp [getBroker, h]
  · intro he
    simp [getBroker, he]

/-- Witness for C1 at concrete pool states. -/
theorem c1_borrow_nonblocking_witness :
    (∃ bid, bid ∈ (PoolState.mk [7] [] 1 0).free ∧
      (getBroker (PoolState.mk [7] [] 1 0)).1 = Except.ok bid ∧
      (getBroker (PoolState.mk [7] [] 1 0)).2.free = (PoolState.mk [7] [] 1 0).free.tail ∧
      (getBroker (PoolState.mk [7] [] 1 0)).2.freeCounter = (1 : Int) - 1 ∧
      (getBroker (PoolState.mk [7] [] 1 0)).2.dead = [] ∧
      (getBroker (PoolState.mk [7] [] 1 0)).2.deadCounter = 0) ∧
    getBroker (PoolState.mk [] [] 0 0) =
      (Except.error KhpErrno.noBrokers, PoolState.mk [] [] 0 0) :=
  ⟨(c1_borrow_nonblocking (PoolState.mk [7] [] 1 0)).1 (by decide),
   (c1_borrow_nonblocking (PoolState.mk [] [] 0 0)).2 rfl⟩

/-! ## Session façades and the deadline pattern

Every broker operation spawns the delegate call on its own task and races
its completion signal against a one-shot timer (armed only when the
configured timeout is positive).  The outcome of that race is embedded as
an explicit `Race` value: `completed r` means the completion signal won
(carrying the delegate's result), `timedOut` means the timer won.  Because
the result of the timeout branch is computed without inspecting the
delegate's result at all, the embedding captures that the in-flight call
is neither cancelled nor awaited. -/

/-- The outcome of racing a delegate call's completion channel against the
operation's timeout timer. -/
inductive Race (α : Type) where
  | completed (res : α)
  | timedOut
  deriving DecidableEq, Repr

/-- A `proto.Message`: its partition offset and its payload length (only
the length of `Value` is ever inspected by the core). -/
structure ProtoMessage where
  msgOffset : Int
  valueLen : Nat
  deriving DecidableEq, Repr

/-- Model of `KafkaConsumer`: the borrowed broker id, the `opened` flag, and the
configured `GetMessageTimeout` (nanoseconds; `> 0` arms the timer). -/
structure KafkaConsumer where
  brokerID : Int
  opened : Bool
  getMessageTimeout : Int
  deriving DecidableEq, Repr

/-- Model of `KafkaClient.NewConsumer`: borrow a broker; build the consumer config;
ask the delegate for a consumer sub-session (`delegateErr` is its error,
if any).  On delegate failure the borrowed id is returned to the free set
before the error is surfaced. -/
def NewConsumer (s : PoolState) (getMessageTimeout : Int) (delegateErr : Option Nat) :
    Except OpErr KafkaConsumer × PoolState :=
  match getBroker s with
  | (Except.error e, s1) => (Except.error (Sum.inl e), s1)
  | (Except.ok bid, s1) =>
      match delegateErr with
      | some e => (Except.error (Sum.inr e), freeBroker bid s1)
      | none => (Except.ok ⟨bid, true, getMessageTimeout⟩, s1)

/-- Model of `KafkaConsumer.Close`: idempotently return the id to the free set. -/
def consumerClose (c : KafkaConsumer) (s : PoolState) : KafkaConsumer × PoolState :=
  if c.opened then ({ c with opened := false }, freeBroker c.brokerID s) else (c, s)

/-- Model of `KafkaConsumer.Corrupt`: idempotently quarantine the id. -/
def consumerCorrupt (c : KafkaConsumer) (s : PoolState) : KafkaConsumer × PoolState :=
  if c.opened then ({ c with opened := false }, deadBroker c.brokerID s) else (c, s)

/-- Model of `KafkaConsumer.Message`: closed-consumer guard, then the deadline race
around `consumer.Consume()`.  On timeout: `Corrupt` (quarantine) and the
`ReadTimeout` error. -/
def consumerMessage (c : KafkaConsumer) (s : PoolState)
    (race : Race (Except Nat ProtoMessage)) :
    Except OpErr ProtoMessage × KafkaConsumer × PoolState :=
  if c.opened = false then
    (Except.error (Sum.inl KhpErrno.consumerClosed), c, s)
  else
    match race with
    | Race.completed (Except.ok m) => (Except.ok m, c, s)
    | Race.completed (Except.error e) => (Except.error (Sum.inr e), c, s)
    | Race.timedOut =>
        let cs := consumerCorrupt c s
        (Except.error (Sum.inl KhpErrno.readTimeout), cs.1, cs.2)

/-- Model of `KafkaProducer`. -/
structure KafkaProducer where
  brokerID : Int
  opened : Bool
  sendMessageTimeout : Int
  deriving DecidableEq, Repr

/-- Model of `KafkaClient.NewProducer`: borrow a broker and build the producer.
The delegate's `Producer(conf)` has no error return, so construction
cannot fail after the borrow. -/
def NewProducer (s : PoolState) (sendMessageTimeout : Int) :
    Except OpErr KafkaProducer × PoolState :=
  match getBroker s with
  | (Except.error e, s1) => (Except.error (Sum.inl e), s1)
  | (Except.ok bid, s1) => (Except.ok ⟨bid, true, sendMessageTimeout⟩, s1)

/-- Model of `KafkaProducer.Corrupt`. -/
def producerCorrupt (p : KafkaProducer) (s : PoolState) : KafkaProducer × PoolState :=
  if p.opened then ({ p with opened := false }, deadBroker p.brokerID s) else (p, s)

/-- Model of `KafkaProducer.SendMessage`: deadline race around `producer.Produce`.
On timeout: `Corrupt` and the `WriteTimeout` error.  On completion the
delegate's assigned offset (or error) is returned. -/
def sendMessage (p : KafkaProducer) (s : PoolState)
    (race : Race (Except Nat Int)) :
    Except OpErr Int × KafkaProducer × PoolState :=
  if p.opened = false then
    (Except.error (Sum.inl KhpErrno.producerClosed), p, s)
  else
    match race with
    | Race.completed (Except.ok off) => (Except.ok off, p, s)
    | Race.completed (Except.error e) => (Except.error (Sum.inr e), p, s)
    | Race.timedOut =>
        let ps := producerCorrupt p s
        (Except.error (Sum.inl KhpErrno.writeTimeout), ps.1, ps.2)

/-- Model of `KafkaOffsetCoordinator`. -/
structure KafkaOffsetCoordinator where
  brokerID : Int
  opened : Bool
  commitOffsetTimeout : Int
  fetchOffsetTimeout : Int
  deriving DecidableEq, Repr

/-- Model of `KafkaClient.NewOffsetCoordinator`: borrow a broker; ask the delegate
for an offset-coordinator sub-session.  NOTE (faithful to the source): on
delegate failure the function returns the error directly — unlike
`NewConsumer` it calls neither `freeBroker` nor `deadBroker`, so the
borrowed id leaves all three pool sets. -/
def NewOffsetCoordinator (s : PoolState)
    (commitOffsetTimeout fetchOffsetTimeout : Int) (delegateErr : Option Nat) :
    Except OpErr KafkaOffsetCoordinator × PoolState :=
  match getBroker s with
  | (Except.error e, s1) => (Except.error (Sum.inl e), s1)
  | (Except.ok bid, s1) =>
      match delegateErr with
      | some e => (Except.error (Sum.inr e), s1)
      | none => (Except.ok ⟨bid, true, commitOffsetTimeout, fetchOffsetTimeout⟩, s1)

/-- Model of `KafkaOffsetCoordinator.Corrupt`. -/
def coordinatorCorrupt (c : KafkaOffsetCoordinator) (s : PoolState) :
    KafkaOffsetCoordinator × PoolState :=
  if c.opened then ({ c with opened := false }, deadBroker c.brokerID s) else (c, s)

/-- Model of `KafkaOffsetCoordinator.CommitOffset`: deadline race around
`offsetCoordinator.Commit`.  On timeout: `Corrupt` and the
`OffsetCommitTimeout` error. -/
def commitOffset (c : KafkaOffsetCoordinator) (s : PoolState)
    (race : Race (Option Nat)) :
    Option OpErr × KafkaOffsetCoordinator × PoolState :=
  if c.opened = false then
    (some (Sum.inl KhpErrno.offsetCoordinatorClosed), c, s)
  else
    match race with
    | Race.completed e => (e.map Sum.inr, c, s)
    | Race.timedOut =>
        let cs := coordinatorCorrupt c s
        (some (Sum.inl KhpErrno.offsetCommitTimeout), cs.1, cs.2)

/-- Model of `KafkaOffsetCoordinator.FetchOffset`: deadline race around
`offsetCoordinator.Offset`.  On timeout: `Corrupt` and the
`OffsetFetchTimeout` error. -/
def fetchOffset (c : KafkaOffsetCoordinator) (s : PoolState)
    (race : Race (Except Nat (Int × String))) :
    Except OpErr (Int × String) × KafkaOffsetCoordinator × PoolState :=
  if c.opened = false then
    (Except.error (Sum.inl KhpErrno.offsetCoordinatorClosed), c, s)
  else
    match race with
    | Race.completed (Except.ok r) => (Except.ok r, c, s)
    | Race.completed (Except.error e) => (Except.error (Sum.inr e), c, s)
    | Race.timedOut =>
        let cs := coordinatorCorrupt c s
        (Except.error (Sum.inl KhpErrno.offsetFetchTimeout), cs.1, cs.2)

/-! ## Metadata snapshot and metadata operations -/

/-- A partition record of a `proto.MetadataResp`: `ID`, `Leader`, `Isrs`
and the per-partition error marker (an opaque code). -/
structure PartitionRecord where
  pid : Int
  leader : Int
  isrs : List Int
  perr : Option Nat
  deriving DecidableEq, Repr

/-- A topic record of a `proto.MetadataResp`: `Name`, the per-topic error
marker, and the partition records. -/
structure TopicRecord where
  name : String
  terr : Option Nat
  partitions : List PartitionRecord
  deriving DecidableEq, Repr

/-- Model of `KafkaClient.GetMetadata`: borrow a broker and race the delegate's
`Metadata()` call against `GetMetadataTimeout`.  On completion the broker
is released and the snapshot (or the delegate's error) returned; on
timeout the broker is quarantined and `MetadataReadTimeout` returned. -/
def GetMetadataOp (s : PoolState) (race : Race (Except Nat (List TopicRecord))) :
    Except OpErr (List TopicRecord) × PoolState :=
  match getBroker s with
  | (Except.error e, s1) => (Except.error (Sum.inl e), s1)
  | (Except.ok bid, s1) =>
      match race with
      | Race.completed (Except.ok m) => (Except.ok m, freeBroker bid s1)
      | Race.completed (Except.error e) => (Except.error (Sum.inr e), freeBroker bid s1)
      | Race.timedOut =>
          (Except.error (Sum.inl KhpErrno.metadataReadTimeout), deadBroker bid s1)

/-- One receive of `KafkaClient.GetOffsets`'s collection loop: a `select`
between the buffered `results` channel (carrying a fetcher goroutine's
error, `none` for nil) and the closed-on-fire `timeout` channel. -/
inductive OffsetsSelect where
  | result (e : Option Nat)
  | timerFired
  deriving DecidableEq, Repr

/-- A single iteration of the `for _ = range offsets` receive loop in
`GetOffsets`.  The `break` statements in the source sit inside the
`select`, so they exit only the `select`: each iteration simply updates
`err` (overwriting any earlier value) and, on the timer branch, sets
`isTimeout`. -/
def getOffsetsLoopStep (acc : Option OpErr × Bool) (sel : OffsetsSelect) :
    Option OpErr × Bool :=
  match sel with
  | OffsetsSelect.result e => (e.map Sum.inr, acc.2)
  | OffsetsSelect.timerFired => (some (Sum.inl KhpErrno.readTimeout), true)

/-- Model of `KafkaClient.GetOffsets`: borrow a broker, spawn the earliest/latest
offset fetchers, then run the two-iteration receive loop over the
schedule `(sel1, sel2)` of select outcomes.  Afterwards the broker is
quarantined if any iteration saw the timer, released otherwise, and the
fetchers' stored results are returned together with the final `err`.
(`off0`/`off1` stand for whatever the fetcher goroutines stored.) -/
def GetOffsetsOp (s : PoolState) (off0 off1 : Int) (sel1 sel2 : OffsetsSelect) :
    (Int × Int × Option OpErr) × PoolState :=
  match getBroker s with
  | (Except.error e, s1) => ((0, 0, some (Sum.inl e)), s1)
  | (Except.ok bid, s1) =>
      let r1 := getOffsetsLoopStep (none, false) sel1
      let r2 := getOffsetsLoopStep r1 sel2
      ((off0, off1, r2.1), if r2.2 then deadBroker bid s1 else freeBroker bid s1)

/-- C2 (code bug): after a successful borrow in `NewOffsetCoordinator`,
a delegate failure returns the error with the borrowed id in none of the
pool's sets — it is neither released nor quarantined, unlike the
identical failure path of `NewConsumer`, which releases it.  Evaluated at
a one-broker pool whose only free id is 7 and a failing delegate. -/
theorem c2_coordinator_leak :
    NewOffsetCoordinator (PoolState.mk [7] [] 1 0) 0 0 (some 3) =
      (Except.error (Sum.inr 3), PoolState.mk [] [] 0 0) ∧
    (7 : Int) ∉ (PoolState.mk [] [] 0 0).free ∧
    (7 : Int) ∉ (PoolState.mk [] [] 0 0).dead ∧
    NewConsumer (PoolState.mk [7] [] 1 0) 0 (some 3) =
      (Except.error (Sum.inr 3), PoolState.mk [7] [] 1 0) := by
  refine ⟨rfl, by decide, by decide, rfl⟩

/-- C3 (code bug): the `select` breaks in `GetOffsets` do not exit the
receive loop.  With the schedule "first select takes the timer branch,
second select consumes a late fetcher result with nil error", the broker
IS quarantined but the returned error is `none` instead of the matching
`ReadTimeout`.  In contrast, the one-shot deadline operations
(`Message`, `SendMessage`, `CommitOffset`, `FetchOffset`, `GetMetadata`)
do quarantine and return their matching timeout error, shown here at the
same concrete pool. -/
theorem c3_getoffsets_timeout_error_lost :
    GetOffsetsOp (PoolState.mk [7] [] 1 0) 0 0
        OffsetsSelect.timerFired (OffsetsSelect.result none) =
      ((0, 0, none), PoolState.mk [] [7] 0 1) ∧
    consumerMessage (KafkaConsumer.mk 7 true 1000) (PoolState.mk [] [] 0 0) Race.timedOut =
      (Except.error (Sum.inl KhpErrno.readTimeout),
        KafkaConsumer.mk 7 false 1000, PoolState.mk [] [7] 0 1) ∧
    sendMessage (KafkaProducer.mk 7 true 1000) (PoolState.mk [] [] 0 0) Race.timedOut =
      (Except.error (Sum.inl KhpErrno.writeTimeout),
        KafkaProducer.mk 7 false 1000, PoolState.mk [] [7] 0 1) ∧
    commitOffset (KafkaOffsetCoordinator.mk 7 true 1000 1000)
        (PoolState.mk [] [] 0 0) Race.timedOut =
      (some (Sum.inl KhpErrno.offsetCommitTimeout),
        KafkaOffsetCoordinator.mk 7 false 1000 1000, PoolState.mk [] [7] 0 1) ∧
    fetchOffset (KafkaOffsetCoordinator.mk 7 true 1000 1000)
        (PoolState.mk [] [] 0 0) Race.timedOut =
      (Except.error (Sum.inl KhpErrno.offsetFetchTimeout),
        KafkaOffsetCoordinator.mk 7 false 1000 1000, PoolState.mk [] [7] 0 1) ∧
    GetMetadataOp (PoolState.mk [7] [] 1 0) Race.timedOut =
      (Except.error (Sum.inl KhpErrno.metadataReadTimeout), PoolState.mk [] [7] 0 1) := by
  refine ⟨rfl, rfl, rfl, rfl, rfl, rfl⟩

/-- The metadata cache fields of `KafkaClient`: the last snapshot pointer
(`nil` until the first refresh) and its `UnixNano` timestamp (`0` until
the first refresh; `time.Now().UnixNano()` is positive whenever set). -/
structure CacheState where
  lastMetadata : Option (List TopicRecord)
  lastUpdateMetadata : Int
  deriving DecidableEq, Repr

/-- The absolute age computation of `FetchMetadata`:
`period := now - last; if period < 0 { period = -period }`. -/
def absDiff (a b : Int) : Int :=
  let d := a - b
  if d < 0 then -d else d

/-- Model of `KafkaClient.FetchMetadata`: if caching is enabled
(`MetadataCachePeriod > 0`), a snapshot exists (`lastUpdateMetadata > 0`)
and its absolute age is strictly below the period, return the cached
snapshot without touching the pool; otherwise fall through to
`GetMetadata`.  (When `lastUpdateMetadata > 0` the snapshot pointer is
always set, since both are written together under the cache lock.) -/
def FetchMetadata (period now : Int) (cache : CacheState) (s : PoolState)
    (race : Race (Except Nat (List TopicRecord))) :
    Except OpErr (List TopicRecord) × PoolState :=
  if 0 < period ∧ 0 < cache.lastUpdateMetadata ∧
      absDiff now cache.lastUpdateMetadata < period then
    (Except.ok (cache.lastMetadata.getD []), s)
  else
    GetMetadataOp s race

/-- C8: with caching enabled and a fresh snapshot (absolute age strictly
below the TTL), `FetchMetadata` returns the cached snapshot and leaves
the pool state untouched (no borrow); in every other case it is exactly
`GetMetadata` through the pool. -/
theorem c8_metadata_cache_ttl (period now : Int) (cache : CacheState)
    (s : PoolState) (race : Race (Except Nat (List TopicRecord))) :
    (∀ m, 0 < period → 0 < cache.lastUpdateMetadata →
      absDiff now cache.lastUpdateMetadata < period →
      cache.lastMetadata = some m →
      FetchMetadata period now cache s race = (Except.ok m, s)) ∧
    ((period ≤ 0 ∨ cache.lastUpdateMetadata ≤ 0 ∨
        period ≤ absDiff now cache.lastUpdateMetadata) →
      FetchMetadata period now cache s race = GetMetadataOp s race) := by
  constructor
  · intro m hp hl hfresh hsnap
    rw [FetchMetadata, if_pos ⟨hp, hl, hfresh⟩, hsnap]
    rfl
  · intro hstale
    rw [FetchMetadata, if_neg]
    intro ⟨hp, hl, hfresh⟩
    rcases hstale with h | h | h <;> omega

/-- Witness for C8: a fresh cache hit and a disabled-cache miss at
concrete values. -/
theorem c8_metadata_cache_ttl_witness :
    FetchMetadata 100 150 (CacheState.mk (some []) 120) (PoolState.mk [7] [] 1 0)
        (Race.completed (Except.ok [])) =
      (Except.ok [], PoolState.mk [7] [] 1 0) ∧
    FetchMetadata 0 150 (CacheState.mk (some []) 120) (PoolState.mk [7] [] 1 0)
        (Race.completed (Except.ok [])) =
      GetMetadataOp (PoolState.mk [7] [] 1 0) (Race.completed (Except.ok [])) :=
  ⟨(c8_metadata_cache_ttl 100 150 (CacheState.mk (some []) 120) (PoolState.mk [7] [] 1 0)
      (Race.completed (Except.ok []))).1 [] (by decide) (by decide) (by decide) rfl,
   (c8_metadata_cache_ttl 0 150 (CacheState.mk (some []) 120) (PoolState.mk [7] [] 1 0)
      (Race.completed (Except.ok []))).2 (Or.inl (by decide))⟩

/-- The partition scan inside `KafkaMetadata.Leader`: first partition
record with the queried id, if any. -/
def leaderInParts : List PartitionRecord → Int → Option Int
  | [], _ => none
  | p :: ps, pid => if p.pid = pid then some p.leader else leaderInParts ps pid

/-- Model of `KafkaMetadata.Leader`: scan the topic records in order.  A topic
record with a set error marker aborts the whole scan with `(-1, err)` —
before its name is even compared.  A name match searches that topic's
partitions; a hit returns `(leader, nil)`, a miss continues with the
remaining topics.  An exhausted scan returns `(-1, nil)`. -/
def Leader : List TopicRecord → String → Int → Int × Option Nat
  | [], _, _ => (-1, none)
  | t :: ts, topic, pid =>
      match t.terr with
      | some e => (-1, some e)
      | none =>
          if t.name = topic then
            match leaderInParts t.partitions pid with
            | some l => (l, none)
            | none => Leader ts topic pid
          else Leader ts topic pid

/-- The lookup the spec describes: the leader id of the first matching
`(topic, partition)` record, ignoring error markers. -/
def leaderLookup : List TopicRecord → String → Int → Option Int
  | [], _, _ => none
  | t :: ts, topic, pid =>
      if t.name = topic then
        match leaderInParts t.partitions pid with
        | some l => some l
        | none => leaderLookup ts topic pid
      else leaderLookup ts topic pid

/-- C9 counterexample: in a snapshot whose first topic record carries an
error marker, the queried topic `"b"` and partition `0` are present with
leader `3` (`leaderLookup` finds them), yet `Leader` returns `(-1, some 5)`
— neither the leader id nor a `-1`-with-no-error. -/
theorem c9_leader_counterexample :
    Leader [TopicRecord.mk "a" (some 5) [],
            TopicRecord.mk "b" none [PartitionRecord.mk 0 3 [] none]] "b" 0 =
      (-1, some 5) ∧
    leaderLookup [TopicRecord.mk "a" (some 5) [],
            TopicRecord.mk "b" none [PartitionRecord.mk 0 3 [] none]] "b" 0 =
      some 3 := by
  constructor <;> rfl

/-- C9 as amended: on a snapshot in which no topic record carries an
error marker, `Leader` returns the leader id (with no error) when the
topic and partition are present, and `(-1, no error)` when they are not.
(In general a set error marker on any topic record scanned before the
match aborts the call with `(-1, that error)`.) -/
theorem c9_leader_no_markers (topics : List TopicRecord) (topic : String) (pid : Int)
    (h : ∀ t ∈ topics, t.terr = none) :
    Leader topics topic pid =
      match leaderLookup topics topic pid with
      | some l => (l, none)
      | none => (-1, none) := by
  induction topics with
  | nil => rfl
  | cons t ts ih =>
      have ht : t.terr = none := h t (List.mem_cons_self t ts)
      have hts : ∀ u ∈ ts, u.terr = none := fun u hu => h u (List.mem_cons_of_mem t hu)
      rw [Leader, leaderLookup, ht]
      by_cases hname : t.name = topic
      · rw [if_pos hname, if_pos hname]
        cases leaderInParts t.partitions pid with
        | none => exact ih hts
        | some l => rfl
      · rw [if_neg hname, if_neg hname]
        exact ih hts

/-- Witness for C9 as amended: a marker-free snapshot, one present and
one absent query. -/
theorem c9_leader_no_markers_witness :
    Leader [TopicRecord.mk "b" none [PartitionRecord.mk 0 3 [] none]] "b" 0 = (3, none) ∧
    Leader [TopicRecord.mk "b" none [PartitionRecord.mk 0 3 [] none]] "z" 1 = (-1, none) := by
  constructor
  · rw [c9_leader_no_markers _ _ _ (by decide)]; rfl
  · rw [c9_leader_no_markers _ _ _ (by decide)]; rfl

/-! ## The GET read loop (`Server.getHandler`)

The handler's read phase is embedded as a trace-producing function.  The
broker's behaviour is an oracle `stream : Nat → InnerEvent` giving, for
each inner-loop iteration, the one observation that iteration makes:
either "the HTTP connection has died" (`connIsAlive` returned false) or
the result of `consumer.Message()`.  Consumer creation is modelled as
always succeeding (its failure path merely ends the loop early and is the
subject of C2, settled on the pool model).  The `queryStr` marshalling of
a plain struct cannot fail and is folded into `beginSuccess`; the final
message-size-hint `Put` has no observable effect on the loop and is
omitted from the trace. -/

/-- What one inner-loop iteration observes. -/
inductive InnerEvent where
  | connDead
  | gotMsg (off : Int) (len : Nat)
  | noData
  | fatal (code : Nat)
  deriving DecidableEq, Repr

/-- Observable actions of the handler's read phase, in order.
`beginSuccess` is `beginResponse` plus the envelope header writes
(`{"query":…,"messages":[`); `endSuccess` is the closing `]}` write plus
`endResponseSuccess`. -/
inductive Ev where
  | errOutOfRange
  | errResponse (code : Nat)
  | openConsumer (budget : Int)
  | closeConsumer
  | beginSuccess
  | writeMsg
  | endSuccess
  deriving DecidableEq, Repr

/-- The assignment `cfg.Consumer.MaxFetchSize = size * length` followed by
the clamp to the configured global maximum — `int32` arithmetic. -/
def fetchBudget (cfgMax size length : Int) : Int :=
  let b := wrap32 (size * length)
  if b > cfgMax then cfgMax else b

/-- The `notEnoughSize` handling after an outer iteration: give up
(`none`) when `size` already reached the configured maximum, otherwise
grow it by `DefaultFetchSize` — `int32` arithmetic. -/
def growDecision (cfgMax cfgDefault size : Int) : Option Int :=
  if size ≥ cfgMax then none else some (wrap32 (size + cfgDefault))

/-- Mutable state of the read loop. -/
structure LoopState where
  idx : Nat
  offset : Int
  length : Nat
  size : Int
  successSent : Bool
  maxSize : Nat
  trace : List Ev
  deriving DecidableEq, Repr

/-- How one run of the inner (per-consumer) loop ended. -/
inductive InnerOut where
  | limitReached
  | ranDry
  | fatalErr (code : Nat)
  | clientGone
  deriving DecidableEq, Repr

/-- The inner loop of `getHandler`: check `connIsAlive`, pull one message.
On a message: stream it (opening the success envelope first if this is
the first message), advance `offset` to `msg.Offset + 1`, decrement the
remaining limit, track the largest payload; stop when the offset bound or
the limit is hit.  On `ErrNoData`: set `notEnoughSize` and break to the
outer loop.  On any other error: emit an error response only if nothing
was sent yet, close the consumer, and return.  The remaining limit is the
recursion argument (the source decrements an `int32` that starts `≥ 1`
and is tested for `0` right after decrementing). -/
def innerRun (stream : Nat → InnerEvent) (offsetTo : Int) :
    Nat → LoopState → LoopState × InnerOut
  | 0, st => (st, InnerOut.limitReached)
  | n + 1, st =>
      match stream st.idx with
      | InnerEvent.connDead =>
          ({ st with idx := st.idx + 1, trace := st.trace ++ [Ev.closeConsumer] },
           InnerOut.clientGone)
      | InnerEvent.fatal e =>
          if st.successSent then
            ({ st with idx := st.idx + 1, trace := st.trace ++ [Ev.closeConsumer] },
             InnerOut.fatalErr e)
          else
            ({ st with idx := st.idx + 1,
                       trace := st.trace ++ [Ev.errResponse e, Ev.closeConsumer] },
             InnerOut.fatalErr e)
      | InnerEvent.noData =>
          ({ st with idx := st.idx + 1 }, InnerOut.ranDry)
      | InnerEvent.gotMsg off len =>
          let st1 : LoopState :=
            { st with
              idx := st.idx + 1,
              trace := st.trace ++
                (if st.successSent then [Ev.writeMsg] else [Ev.beginSuccess, Ev.writeMsg]),
              successSent := true,
              offset := off + 1,
              length := n,
              maxSize := max st.maxSize len }
          if offsetTo ≤ off + 1 ∨ n = 0 then
            ({ st1 with trace := st1.trace ++ [Ev.closeConsumer] }, InnerOut.limitReached)
          else
            innerRun stream offsetTo n st1

/-- How the whole read loop ended. -/
inductive LoopResult where
  | done
  | fatalErr (code : Nat)
  | clientGone
  deriving DecidableEq, Repr

/-- The outer `ConsumeLoop` of `getHandler`: set the consumer's fetch
budget, open a fresh consumer at the current offset, run the inner loop,
close the consumer, and on `notEnoughSize` either give up (budget already
maximal) or grow `size` and loop.  The fuel argument bounds the number of
outer iterations; `none` means the loop did not finish within that many
consumer sessions. -/
def outerRun (stream : Nat → InnerEvent) (cfgMax cfgDefault offsetTo : Int) :
    Nat → LoopState → Option (LoopState × LoopResult)
  | 0, _ => none
  | fuel + 1, st =>
      match innerRun stream offsetTo st.length
          { st with trace := st.trace ++
            [Ev.openConsumer (fetchBudget cfgMax st.size (Int.ofNat st.length))] } with
      | (st1, InnerOut.limitReached) => some (st1, LoopResult.done)
      | (st1, InnerOut.fatalErr e) => some (st1, LoopResult.fatalErr e)
      | (st1, InnerOut.clientGone) => some (st1, LoopResult.clientGone)
      | (st1, InnerOut.ranDry) =>
          match growDecision cfgMax cfgDefault st1.size with
          | none =>
              some ({ st1 with trace := st1.trace ++ [Ev.closeConsumer] }, LoopResult.done)
          | some sz =>
              outerRun stream cfgMax cfgDefault offsetTo fuel
                { st1 with trace := st1.trace ++ [Ev.closeConsumer], size := sz }

/-- The GET query parameters after URL parsing: each is the parsed value
of the corresponding query parameter, or `none` when absent. -/
structure GetParams where
  limitParam : Option Int
  offsetParam : Option Int
  relativeParam : Option Int
  deriving DecidableEq, Repr

/-- The limit computation of `getHandler`: an absent `limit` parameter is
replaced by the string `"1"` (which parses to `1`); a parsed value `≤ 0`
is replaced by `1`. -/
def effectiveLimit (p : GetParams) : Int :=
  let length : Int :=
    match p.limitParam with
    | none => 1
    | some v => v
  if length ≤ 0 then 1 else length

/-- The start-offset resolution of `getHandler`: a present `relative`
parameter `r` gives `offsetFrom + r` when `r ≥ 0` and `offsetTo + r`
otherwise; else a present `offset` parameter is used as is; else
`offsetFrom`. -/
def resolveOffset (offsetFrom offsetTo : Int) (p : GetParams) : Int :=
  match p.relativeParam with
  | some r => if 0 ≤ r then offsetFrom + r else offsetTo + r
  | none =>
      match p.offsetParam with
      | some o => o
      | none => offsetFrom

/-- Overall outcome of the handler's read phase. -/
inductive ReadOutcome where
  | outOfRange
  | ok
  | fatalErr (code : Nat)
  | clientGone
  | fuelOut
  deriving DecidableEq, Repr

/-- The read phase of `Server.getHandler`, from the range pre-check on:
resolve the start offset, reject it when outside `[offsetFrom, offsetTo)`
before any consumer is created, otherwise seed the loop state (`size`
from the per-topic hint, remaining limit from `effectiveLimit`) and run
the loop.  On a normal exit the success envelope is opened if still
pending and closed (`]}` + `endResponseSuccess`); on a fatal delegate
error or a dead client connection the handler returns with the trace as
it stands. -/
def getHandlerRead (stream : Nat → InnerEvent) (cfgMax cfgDefault hint : Int)
    (offsetFrom offsetTo : Int) (p : GetParams) (fuel : Nat) :
    List Ev × ReadOutcome :=
  if resolveOffset offsetFrom offsetTo p < offsetFrom ∨
      offsetTo ≤ resolveOffset offsetFrom offsetTo p then
    ([Ev.errOutOfRange], ReadOutcome.outOfRange)
  else
    match outerRun stream cfgMax cfgDefault offsetTo fuel
        ⟨0, resolveOffset offsetFrom offsetTo p, (effectiveLimit p).toNat, hint, false, 0, []⟩ with
    | none => ([], ReadOutcome.fuelOut)
    | some (st, LoopResult.fatalErr e) => (st.trace, ReadOutcome.fatalErr e)
    | some (st, LoopResult.clientGone) => (st.trace, ReadOutcome.clientGone)
    | some (st, LoopResult.done) =>
        ((if st.successSent then st.trace else st.trace ++ [Ev.beginSuccess]) ++ [Ev.endSuccess],
         ReadOutcome.ok)

/-- C4: the read phase fails with the out-of-range error exactly when the
resolved start offset lies outside `[offsetFrom, offsetTo)`, and in that
case no consumer session is opened (no `openConsumer` action appears —
the pre-check fires before the loop can borrow a pool id). -/
theorem c4_range_precheck (stream : Nat → InnerEvent)
    (cfgMax cfgDefault hint offsetFrom offsetTo : Int) (p : GetParams) (fuel : Nat) :
    ((getHandlerRead stream cfgMax cfgDefault hint offsetFrom offsetTo p fuel).2 =
        ReadOutcome.outOfRange ↔
      (resolveOffset offsetFrom offsetTo p < offsetFrom ∨
        offsetTo ≤ resolveOffset offsetFrom offsetTo p)) ∧
    ((resolveOffset offsetFrom offsetTo p < offsetFrom ∨
        offsetTo ≤ resolveOffset offsetFrom offsetTo p) →
      ∀ b, Ev.openConsumer b ∉
        (getHandlerRead stream cfgMax cfgDefault hint offsetFrom offsetTo p fuel).1) := by
  by_cases hc : resolveOffset offsetFrom offsetTo p < offsetFrom ∨
      offsetTo ≤ resolveOffset offsetFrom offsetTo p
  · refine ⟨?_, ?_⟩
    · simp [getHandlerRead, if_pos hc, hc]
    · intro _ b
      simp [getHandlerRead, if_pos hc]
  · refine ⟨?_, fun h => absurd h hc⟩
    rw [getHandlerRead]
    simp only [if_neg hc]
    constructor
    · intro habs
      exfalso
      rcases houter : outerRun stream cfgMax cfgDefault offsetTo fuel
          ⟨0, resolveOffset offsetFrom offsetTo p, (effectiveLimit p).toNat, hint, false, 0, []⟩ with
        _ | ⟨st, res⟩
      · rw [houter] at habs; simp at habs
      · rw [houter] at habs; cases res <;> simp at habs
    · intro h
      exact absurd h hc

/-- Witness for C4 at a concrete out-of-range request (`offset=5` against
bounds `[0, 1)`). -/
theorem c4_range_precheck_witness :
    (getHandlerRead (fun _ => InnerEvent.noData) 8 4 1 0 1
        (GetParams.mk (some 1) (some 5) none) 3).2 = ReadOutcome.outOfRange ∧
    Ev.openConsumer 8 ∉
      (getHandlerRead (fun _ => InnerEvent.noData) 8 4 1 0 1
        (GetParams.mk (some 1) (some 5) none) 3).1 :=
  ⟨(c4_range_precheck (fun _ => InnerEvent.noData) 8 4 1 0 1
      (GetParams.mk (some 1) (some 5) none) 3).1.mpr (Or.inr (by decide)),
   (c4_range_precheck (fun _ => InnerEvent.noData) 8 4 1 0 1
      (GetParams.mk (some 1) (some 5) none) 3).2 (Or.inr (by decide)) 8⟩

/-- C5 counterexample: with one message already streamed, a fatal
delegate error makes the handler return with neither the closing `]}`
(`endSuccess`) nor an error response in its output — the claim that "the
JSON messages array and success envelope are closed" fails: the response
is cut off after the last streamed message. -/
theorem c5_truncation_counterexample :
    getHandlerRead (fun i => if i = 0 then InnerEvent.gotMsg 0 3 else InnerEvent.fatal 42)
        100 10 10 0 50 (GetParams.mk (some 2) (some 0) none) 5 =
      ([Ev.openConsumer 20, Ev.beginSuccess, Ev.writeMsg, Ev.closeConsumer],
       ReadOutcome.fatalErr 42) ∧
    Ev.endSuccess ∉
      (getHandlerRead (fun i => if i = 0 then InnerEvent.gotMsg 0 3 else InnerEvent.fatal 42)
        100 10 10 0 50 (GetParams.mk (some 2) (some 0) none) 5).1 := by
  refine ⟨by decide, by decide⟩

/-- C6 counterexample: with `globalMaxFetchSize = 8`,
`defaultFetchSize = 4` and a per-topic hint of `1` (a topic whose
messages are 1 byte), an all-`ErrNoData` stream needs 3 fresh consumer
sessions (`size` takes the values 1, 5, 9) while the claimed bound is
`⌈8 / 4⌉ = 2`: within fuel 2 the loop has not terminated. -/
theorem c6_bound_counterexample :
    (8 + 4 - 1) / 4 = 2 ∧
    (getHandlerRead (fun _ => InnerEvent.noData) 8 4 1 0 100
        (GetParams.mk (some 1) (some 0) none) 2).2 = ReadOutcome.fuelOut ∧
    (getHandlerRead (fun _ => InnerEvent.noData) 8 4 1 0 100
        (GetParams.mk (some 1) (some 0) none) 3).2 = ReadOutcome.ok := by
  refine ⟨rfl, by decide, by decide⟩

/-- C7 counterexample: the `size += DefaultFetchSize` growth is `int32`
arithmetic, so with `globalMaxFetchSize = defaultFetchSize = 2^31 − 1`
(legal `int32` configuration values) a hint of `1` grows to
`-2147483648`: the stored size decreases, refuting "increases by exactly
defaultFetchSize and never decreases". -/
theorem c7_growth_counterexample :
    growDecision (2 ^ 31 - 1) (2 ^ 31 - 1) 1 = some (-(2 ^ 31)) ∧
    (-(2 ^ 31) : Int) < 1 := by
  refine ⟨by decide, by decide⟩

/-- C7 as amended: the consumer's fetch budget is exactly
`min (wrap32 (size * remainingLimit)) globalMaxFetchSize`; the loop gives
up after "no data" exactly when `size ≥ globalMaxFetchSize`; otherwise
`size` becomes `wrap32 (size + defaultFetchSize)`, which — whenever
`size + defaultFetchSize` stays inside the non-negative `int32` range —
is an increase by exactly `defaultFetchSize` and never a decrease. -/
theorem c7_budget_and_growth (cfgMax cfgDefault size length : Int) :
    fetchBudget cfgMax size length = min (wrap32 (size * length)) cfgMax ∧
    (growDecision cfgMax cfgDefault size = none ↔ cfgMax ≤ size) ∧
    (size < cfgMax → 0 ≤ size → 0 ≤ cfgDefault → size + cfgDefault < 2 ^ 31 →
      growDecision cfgMax cfgDefault size = some (size + cfgDefault) ∧
      size ≤ size + cfgDefault) := by
  refine ⟨?_, ?_, ?_⟩
  · rw [fetchBudget]
    rcases le_or_lt (wrap32 (size * length)) cfgMax with h | h
    · rw [if_neg (not_lt.mpr h), min_eq_left h]
    · rw [if_pos h, min_eq_right h.le]
  · rw [growDecision]
    constructor
    · intro h
      by_contra hlt
      rw [if_neg (fun hge => hlt hge)] at h
      exact Option.noConfusion h
    · intro h
      rw [if_pos h]
  · intro hlt hnn hd hub
    have hw : wrap32 (size + cfgDefault) = size + cfgDefault := by
      rw [wrap32]
      omega
    rw [growDecision, if_neg (not_le.mpr hlt), hw]
    exact ⟨rfl, by omega⟩

/-- Witness for C7 as amended, at the default configuration
(`globalMaxFetchSize = 4194304`, `defaultFetchSize = 524288`). -/
theorem c7_budget_and_growth_witness :
    fetchBudget 4194304 524288 3 = min (wrap32 (524288 * 3)) 4194304 ∧
    (growDecision 4194304 524288 524288 = none ↔ (4194304 : Int) ≤ 524288) ∧
    (growDecision 4194304 524288 524288 = some (524288 + 524288) ∧
      (524288 : Int) ≤ 524288 + 524288) :=
  ⟨(c7_budget_and_growth 4194304 524288 524288 3).1,
   (c7_budget_and_growth 4194304 524288 524288 3).2.1,
   (c7_budget_and_growth 4194304 524288 524288 3).2.2
     (by decide) (by decide) (by decide) (by decide)⟩

/-- C10: a GET request without a `limit` parameter behaves exactly like
one with `limit=1`, and so does any request whose `limit` parses to a
value `≤ 0` — the request is not rejected. -/
theorem c10_limit_defaulting (stream : Nat → InnerEvent)
    (cfgMax cfgDefault hint offsetFrom offsetTo : Int)
    (op rp : Option Int) (fuel : Nat) :
    getHandlerRead stream cfgMax cfgDefault hint offsetFrom offsetTo
        (GetParams.mk none op rp) fuel =
      getHandlerRead stream cfgMax cfgDefault hint offsetFrom offsetTo
        (GetParams.mk (some 1) op rp) fuel ∧
    (∀ v : Int, v ≤ 0 →
      getHandlerRead stream cfgMax cfgDefault hint offsetFrom offsetTo
          (GetParams.mk (some v) op rp) fuel =
        getHandlerRead stream cfgMax cfgDefault hint offsetFrom offsetTo
          (GetParams.mk (some 1) op rp) fuel) := by
  have hlim : ∀ v : Int, v ≤ 0 →
      effectiveLimit (GetParams.mk (some v) op rp) = effectiveLimit (GetParams.mk (some 1) op rp) := by
    intro v hv
    simp [effectiveLimit, if_pos hv]
  constructor
  · rfl
  · intro v hv
    rw [getHandlerRead, getHandlerRead, hlim v hv]
    rfl

/-- Witness for C10 at `limit = -5`. -/
theorem c10_limit_defaulting_witness :
    getHandlerRead (fun _ => InnerEvent.noData) 8 4 1 0 100
        (GetParams.mk (some (-5)) (some 0) none) 3 =
      getHandlerRead (fun _ => InnerEvent.noData) 8 4 1 0 100
        (GetParams.mk (some 1) (some 0) none) 3 :=
  (c10_limit_defaulting (fun _ => InnerEvent.noData) 8 4 1 0 100
      (some 0) none 3).2 (-5) (by decide)

/-! ### Emission-shape invariant of the read loop (for C5) -/

/-- Invariant of the emitted output while the loop is still running:
the `successSent` flag tracks whether a message was streamed, and no
error response and no closing `]}` have been written. -/
def SaneT (b : Bool) (tr : List Ev) : Prop :=
  (b = true ↔ Ev.writeMsg ∈ tr) ∧
  (∀ e, Ev.errResponse e ∉ tr) ∧
  Ev.endSuccess ∉ tr

/-- The invariant on traces lifted to a loop state. -/
def Sane (st : LoopState) : Prop :=
  SaneT st.successSent st.trace

/-- Shape of the output when the loop ends with a fatal delegate error
`e`: the success envelope is never closed, and either at least one
message was streamed and no error response was written, or no message
was streamed and the error response for `e` was written. -/
def FatalShapeT (e : Nat) (tr : List Ev) : Prop :=
  Ev.endSuccess ∉ tr ∧
  ((Ev.writeMsg ∈ tr ∧ ∀ e2, Ev.errResponse e2 ∉ tr) ∨
   (Ev.writeMsg ∉ tr ∧ Ev.errResponse e ∈ tr))

/-- The shape every inner-loop result satisfies, by outcome. -/
def postShape (r : LoopState × InnerOut) : Prop :=
  match r with
  | (st1, InnerOut.fatalErr e) => FatalShapeT e st1.trace
  | (st1, _) => Sane st1

theorem saneT_append (b : Bool) (tr l : List Ev) (h : SaneT b tr)
    (hW : Ev.writeMsg ∉ l) (hE : ∀ e, Ev.errResponse e ∉ l)
    (hS : Ev.endSuccess ∉ l) : SaneT b (tr ++ l) := by
  obtain ⟨h1, h2, h3⟩ := h
  refine ⟨?_, fun e => ?_, ?_⟩
  · rw [h1]
    constructor
    · exact fun hm => List.mem_append_left _ hm
    · intro hm
      rcases List.mem_append.mp hm with hm | hm
      · exact hm
      · exact absurd hm hW
  · intro hm
    rcases List.mem_append.mp hm with hm | hm
    · exact h2 e hm
    · exact hE e hm
  · intro hm
    rcases List.mem_append.mp hm with hm | hm
    · exact h3 hm
    · exact hS hm

theorem saneT_msg (b : Bool) (tr : List Ev) (h : SaneT b tr) :
    SaneT true (tr ++ if b = true then [Ev.writeMsg] else [Ev.beginSuccess, Ev.writeMsg]) := by
  obtain ⟨_, h2, h3⟩ := h
  refine ⟨?_, fun e => ?_, ?_⟩
  · constructor
    · intro _
      refine List.mem_append_right _ ?_
      cases b <;> simp
    · intro _
      rfl
  · intro hm
    rcases List.mem_append.mp hm with hm | hm
    · exact h2 e hm
    · cases b <;> simp at hm
  · intro hm
    rcases List.mem_append.mp hm with hm | hm
    · exact h3 hm
    · cases b <;> simp at hm

theorem fatalShapeT_sent (tr : List Ev) (e : Nat) (h : SaneT true tr) :
    FatalShapeT e (tr ++ [Ev.closeConsumer]) := by
  obtain ⟨h1, h2, h3⟩ := h
  refine ⟨?_, Or.inl ⟨?_, fun e2 => ?_⟩⟩
  · intro hm
    rcases List.mem_append.mp hm with hm | hm
    · exact h3 hm
    · simp at hm
  · exact List.mem_append_left _ (h1.mp rfl)
  · intro hm
    rcases List.mem_append.mp hm with hm | hm
    · exact h2 e2 hm
    · simp at hm

theorem fatalShapeT_unsent (tr : List Ev) (e : Nat) (h : SaneT false tr) :
    FatalShapeT e (tr ++ [Ev.errResponse e, Ev.closeConsumer]) := by
  obtain ⟨h1, _, h3⟩ := h
  refine ⟨?_, Or.inr ⟨?_, ?_⟩⟩
  · intro hm
    rcases List.mem_append.mp hm with hm | hm
    · exact h3 hm
    · simp at hm
  · intro hm
    rcases List.mem_append.mp hm with hm | hm
    · exact Bool.false_ne_true (h1.mpr hm)
    · simp at hm
  · exact List.mem_append_right _ (by simp)

theorem innerRun_shape (stream : Nat → InnerEvent) (offsetTo : Int) :
    ∀ n st, Sane st → postShape (innerRun stream offsetTo n st) := by
  intro n
  induction n with
  | zero =>
      intro st h
      exact h
  | succ n ih =>
      intro st h
      rcases hev : stream st.idx with _ | ⟨off, len⟩ | _ | e
      · simp only [innerRun, hev]
        exact saneT_append _ _ _ h (by simp) (fun e => by simp) (by simp)
      · simp only [innerRun, hev]
        have hs1 : SaneT true (st.trace ++
            if st.successSent = true then [Ev.writeMsg] else [Ev.beginSuccess, Ev.writeMsg]) :=
          saneT_msg _ _ h
        split
        · exact saneT_append _ _ _ hs1 (by simp) (fun e => by simp) (by simp)
        · exact ih _ hs1
      · simp only [innerRun, hev]
        exact h
      · simp only [innerRun, hev]
        by_cases hss : st.successSent = true
        · rw [if_pos hss]
          exact fatalShapeT_sent _ _ (hss ▸ h)
        · rw [if_neg hss]
          have hb : st.successSent = false := by
            cases hsb : st.successSent
            · rfl
            · exact absurd hsb hss
          exact fatalShapeT_unsent _ _ (hb ▸ h)

/-- The shape of the outer loop's result, by outcome. -/
def postShapeOuter (r : Option (LoopState × LoopResult)) : Prop :=
  match r with
  | none => True
  | some (st1, LoopResult.fatalErr e) => FatalShapeT e st1.trace
  | some (st1, _) => Sane st1

theorem outerRun_shape (stream : Nat → InnerEvent) (cfgMax cfgDefault offsetTo : Int) :
    ∀ fuel st, Sane st →
      postShapeOuter (outerRun stream cfgMax cfgDefault offsetTo fuel st) := by
  intro fuel
  induction fuel with
  | zero =>
      intro st _
      exact trivial
  | succ fuel ih =>
      intro st h
      have h0 : Sane { st with trace := st.trace ++
          [Ev.openConsumer (fetchBudget cfgMax st.size (Int.ofNat st.length))] } :=
        saneT_append _ _ _ h (by simp) (fun e => by simp) (by simp)
      have hshape := innerRun_shape stream offsetTo st.length
        { st with trace := st.trace ++
          [Ev.openConsumer (fetchBudget cfgMax st.size (Int.ofNat st.length))] } h0
      rw [outerRun]
      split
      · next st1 heq =>
          rw [heq] at hshape
          exact hshape
      · next st1 e heq =>
          rw [heq] at hshape
          exact hshape
      · next st1 heq =>
          rw [heq] at hshape
          exact hshape
      · next st1 heq =>
          rw [heq] at hshape
          have hst2 : SaneT st1.successSent (st1.trace ++ [Ev.closeConsumer]) :=
            saneT_append _ _ _ hshape (by simp) (fun e => by simp) (by simp)
          split
          · exact hst2
          · exact ih _ hst2

/-- C5 as amended: in the read loop, a delegate error other than
`ErrNoData` that occurs before any message has been streamed produces an
error response; one that occurs after at least one message has been
streamed produces no error response — and no closing `]}` either: the
handler returns with the response cut off after the last streamed
message (the messages array and success envelope are NOT closed). -/
theorem c5_truncation_on_fatal (stream : Nat → InnerEvent)
    (cfgMax cfgDefault hint offsetFrom offsetTo : Int) (p : GetParams) (fuel : Nat) (e : Nat)
    (hfatal : (getHandlerRead stream cfgMax cfgDefault hint offsetFrom offsetTo p fuel).2 =
      ReadOutcome.fatalErr e) :
    Ev.endSuccess ∉ (getHandlerRead stream cfgMax cfgDefault hint offsetFrom offsetTo p fuel).1 ∧
    (Ev.writeMsg ∈ (getHandlerRead stream cfgMax cfgDefault hint offsetFrom offsetTo p fuel).1 →
      ∀ e2, Ev.errResponse e2 ∉
        (getHandlerRead stream cfgMax cfgDefault hint offsetFrom offsetTo p fuel).1) ∧
    (Ev.writeMsg ∉ (getHandlerRead stream cfgMax cfgDefault hint offsetFrom offsetTo p fuel).1 →
      Ev.errResponse e ∈
        (getHandlerRead stream cfgMax cfgDefault hint offsetFrom offsetTo p fuel).1) := by
  rw [getHandlerRead] at hfatal ⊢
  by_cases hc : resolveOffset offsetFrom offsetTo p < offsetFrom ∨
      offsetTo ≤ resolveOffset offsetFrom offsetTo p
  · rw [if_pos hc] at hfatal
    exact absurd hfatal (by simp)
  · rw [if_neg hc] at hfatal ⊢
    have hsane0 : Sane ⟨0, resolveOffset offsetFrom offsetTo p,
        (effectiveLimit p).toNat, hint, false, 0, []⟩ :=
      ⟨by simp, fun e => by simp, by simp⟩
    have hshape := outerRun_shape stream cfgMax cfgDefault offsetTo fuel
      ⟨0, resolveOffset offsetFrom offsetTo p, (effectiveLimit p).toNat, hint, false, 0, []⟩ hsane0
    rcases houter : outerRun stream cfgMax cfgDefault offsetTo fuel
        ⟨0, resolveOffset offsetFrom offsetTo p, (effectiveLimit p).toNat, hint, false, 0, []⟩ with
      _ | ⟨st, res⟩
    · rw [houter] at hfatal
      simp at hfatal
    · rw [houter] at hfatal hshape
      rcases res with _ | e0 | _
      · simp at hfatal
      · simp at hfatal
        subst hfatal
        obtain ⟨g1, g2⟩ := hshape
        refine ⟨g1, ?_, ?_⟩
        · intro hw e2
          rcases g2 with ⟨_, gno⟩ | ⟨gnm, _⟩
          · exact gno e2
          · exact absurd hw gnm
        · intro hnw
          rcases g2 with ⟨gm, _⟩ | ⟨_, ge⟩
          · exact absurd gm hnw
          · exact ge
      · simp at hfatal

/-- Witness for C5 as amended, at the run of `c5_truncation_counterexample`
(one streamed message, then a fatal error). -/
theorem c5_truncation_on_fatal_witness :
    Ev.endSuccess ∉
      (getHandlerRead (fun i => if i = 0 then InnerEvent.gotMsg 0 3 else InnerEvent.fatal 42)
        100 10 10 0 50 (GetParams.mk (some 2) (some 0) none) 5).1 ∧
    (Ev.writeMsg ∈
      (getHandlerRead (fun i => if i = 0 then InnerEvent.gotMsg 0 3 else InnerEvent.fatal 42)
        100 10 10 0 50 (GetParams.mk (some 2) (some 0) none) 5).1 →
      ∀ e2, Ev.errResponse e2 ∉
        (getHandlerRead (fun i => if i = 0 then InnerEvent.gotMsg 0 3 else InnerEvent.fatal 42)
          100 10 10 0 50 (GetParams.mk (some 2) (some 0) none) 5).1) :=
  ⟨(c5_truncation_on_fatal (fun i => if i = 0 then InnerEvent.gotMsg 0 3 else InnerEvent.fatal 42)
      100 10 10 0 50 (GetParams.mk (some 2) (some 0) none) 5 42 (by decide)).1,
   (c5_truncation_on_fatal (fun i => if i = 0 then InnerEvent.gotMsg 0 3 else InnerEvent.fatal 42)
      100 10 10 0 50 (GetParams.mk (some 2) (some 0) none) 5 42 (by decide)).2.1⟩

/-! ### Termination bound of the read loop (for C6) -/

/-- Number of `size += DefaultFetchSize` growth steps still possible
before `size ≥ cfgMax` stops the loop: `⌈(cfgMax − size) / cfgDefault⌉`
(computed in `Nat`; `0` once `size ≥ cfgMax`). -/
def growthNeeded (cfgMax cfgDefault size : Int) : Nat :=
  ((cfgMax - size).toNat + cfgDefault.toNat - 1) / cfgDefault.toNat

theorem growthNeeded_pos (cfgMax cfgDefault size : Int)
    (hd : 0 < cfgDefault) (hlt : size < cfgMax) :
    1 ≤ growthNeeded cfgMax cfgDefault size := by
  have hdn : 0 < cfgDefault.toNat := by omega
  rw [growthNeeded, Nat.one_le_div_iff hdn]
  omega

theorem growthNeeded_step (cfgMax cfgDefault size : Int)
    (hd : 0 < cfgDefault) (hlt : size < cfgMax) :
    growthNeeded cfgMax cfgDefault (size + cfgDefault) + 1 ≤
      growthNeeded cfgMax cfgDefault size := by
  have hdn : 0 < cfgDefault.toNat := by omega
  have hx : 1 ≤ (cfgMax - size).toNat := by omega
  have hsub : (cfgMax - (size + cfgDefault)).toNat =
      (cfgMax - size).toNat - cfgDefault.toNat := by omega
  rw [growthNeeded, growthNeeded, hsub]
  have hrw : (cfgMax - size).toNat + cfgDefault.toNat - 1 =
      ((cfgMax - size).toNat - 1) + cfgDefault.toNat := by omega
  rw [hrw, Nat.add_div_right _ hdn]
  rcases le_or_lt cfgDefault.toNat (cfgMax - size).toNat with hcase | hcase
  · have heqn : (cfgMax - size).toNat - cfgDefault.toNat + cfgDefault.toNat - 1 =
        (cfgMax - size).toNat - 1 := by omega
    rw [heqn]
  · have h0 : (cfgMax - size).toNat - cfgDefault.toNat = 0 := by omega
    rw [h0]
    have hz : (0 + cfgDefault.toNat - 1) / cfgDefault.toNat = 0 :=
      Nat.div_eq_of_lt (by omega)
    rw [hz]
    exact Nat.succ_le_succ (Nat.zero_le _)

theorem growthNeeded_le (cfgMax cfgDefault hint : Int) (hh : 0 ≤ hint) :
    growthNeeded cfgMax cfgDefault hint ≤
      (cfgMax.toNat + cfgDefault.toNat - 1) / cfgDefault.toNat := by
  apply Nat.div_le_div_right
  omega

theorem growDecision_some (cfgMax cfgDefault size sz : Int)
    (h : growDecision cfgMax cfgDefault size = some sz) :
    size < cfgMax ∧ sz = wrap32 (size + cfgDefault) := by
  rw [growDecision] at h
  by_cases hge : size ≥ cfgMax
  · rw [if_pos hge] at h
    exact absurd h (by simp)
  · rw [if_neg hge] at h
    simp at h
    exact ⟨lt_of_not_ge hge, h.symm⟩

/-- The inner loop never touches `size`. -/
theorem innerRun_size (stream : Nat → InnerEvent) (offsetTo : Int) :
    ∀ n st, (innerRun stream offsetTo n st).1.size = st.size := by
  intro n
  induction n with
  | zero => intro st; rfl
  | succ n ih =>
      intro st
      rcases hev : stream st.idx with _ | ⟨off, len⟩ | _ | e
      · simp only [innerRun, hev]
      · simp only [innerRun, hev]
        split
        · rfl
        · exact ih _
      · simp only [innerRun, hev]
      · simp only [innerRun, hev]
        split <;> rfl

/-- The outer loop terminates within `growthNeeded + 1` iterations: one
fuel unit per remaining growth step plus the final iteration that either
finishes or gives up. -/
theorem outerRun_total (stream : Nat → InnerEvent) (cfgMax cfgDefault offsetTo : Int)
    (hd : 0 < cfgDefault) (hov : cfgMax + cfgDefault < 2 ^ 31) :
    ∀ n st, 0 ≤ st.size → growthNeeded cfgMax cfgDefault st.size ≤ n →
      (outerRun stream cfgMax cfgDefault offsetTo (n + 1) st).isSome := by
  intro n
  induction n with
  | zero =>
      intro st h0 hg
      rw [outerRun]
      split
      · simp
      · simp
      · simp
      · next st1 heq =>
          split
          · simp
          · next sz hgrow =>
              exfalso
              have h2 := innerRun_size stream offsetTo st.length
                { st with trace := st.trace ++
                  [Ev.openConsumer (fetchBudget cfgMax st.size (Int.ofNat st.length))] }
              rw [heq] at h2
              have h3 : st1.size = st.size := h2
              obtain ⟨hlt, _⟩ := growDecision_some _ _ _ _ hgrow
              rw [h3] at hlt
              have := growthNeeded_pos cfgMax cfgDefault st.size hd hlt
              omega
  | succ n ih =>
      intro st h0 hg
      rw [outerRun]
      split
      · simp
      · simp
      · simp
      · next st1 heq =>
          split
          · simp
          · next sz hgrow =>
              have h2 := innerRun_size stream offsetTo st.length
                { st with trace := st.trace ++
                  [Ev.openConsumer (fetchBudget cfgMax st.size (Int.ofNat st.length))] }
              rw [heq] at h2
              have h3 : st1.size = st.size := h2
              obtain ⟨hlt, hsz⟩ := growDecision_some _ _ _ _ hgrow
              rw [h3] at hlt hsz
              have hw : wrap32 (st.size + cfgDefault) = st.size + cfgDefault := by
                unfold wrap32
                omega
              rw [hw] at hsz
              have hstep := growthNeeded_step cfgMax cfgDefault st.size hd hlt
              refine ih { st1 with trace := st1.trace ++ [Ev.closeConsumer], size := sz } ?_ ?_
              · show 0 ≤ sz
                omega
              · show growthNeeded cfgMax cfgDefault sz ≤ n
                rw [hsz]
                omega

/-- C6 as amended: for every stream of broker responses, the read loop
terminates within `⌈globalMaxFetchSize / defaultFetchSize⌉ + 1` outer
iterations (fresh consumer sessions) — one more than the claimed bound —
provided `defaultFetchSize > 0`, the seeded per-topic hint is
non-negative, and `globalMaxFetchSize + defaultFetchSize` does not
overflow `int32`. -/
theorem c6_outer_iteration_bound (stream : Nat → InnerEvent)
    (cfgMax cfgDefault hint offsetFrom offsetTo : Int) (p : GetParams)
    (hd : 0 < cfgDefault) (hh : 0 ≤ hint) (hov : cfgMax + cfgDefault < 2 ^ 31) :
    (getHandlerRead stream cfgMax cfgDefault hint offsetFrom offsetTo p
        ((cfgMax.toNat + cfgDefault.toNat - 1) / cfgDefault.toNat + 1)).2 ≠
      ReadOutcome.fuelOut := by
  rw [getHandlerRead]
  by_cases hc : resolveOffset offsetFrom offsetTo p < offsetFrom ∨
      offsetTo ≤ resolveOffset offsetFrom offsetTo p
  · rw [if_pos hc]
    simp
  · rw [if_neg hc]
    have htot := outerRun_total stream cfgMax cfgDefault offsetTo hd hov
      ((cfgMax.toNat + cfgDefault.toNat - 1) / cfgDefault.toNat)
      ⟨0, resolveOffset offsetFrom offsetTo p, (effectiveLimit p).toNat, hint, false, 0, []⟩
      hh (growthNeeded_le cfgMax cfgDefault hint hh)
    rcases houter : outerRun stream cfgMax cfgDefault offsetTo
        ((cfgMax.toNat + cfgDefault.toNat - 1) / cfgDefault.toNat + 1)
        ⟨0, resolveOffset offsetFrom offsetTo p, (effectiveLimit p).toNat, hint, false, 0, []⟩ with
      _ | ⟨st, res⟩
    · rw [houter] at htot
      simp at htot
    · rcases res with _ | e0 | _ <;> simp

/-- Witness for C6 as amended at the counterexample configuration:
`⌈8/4⌉ + 1 = 3` sessions do suffice there. -/
theorem c6_outer_iteration_bound_witness :
    (getHandlerRead (fun _ => InnerEvent.noData) 8 4 1 0 100
        (GetParams.mk (some 1) (some 0) none)
        (((8 : Int).toNat + (4 : Int).toNat - 1) / (4 : Int).toNat + 1)).2 ≠
      ReadOutcome.fuelOut :=
  c6_outer_iteration_bound (fun _ => InnerEvent.noData) 8 4 1 0 100
    (GetParams.mk (some 1) (some 0) none) (by decide) (by decide) (by decide)

end KHP
